import Mathlib

/-!
Verification development for the pvr voxel-volume core
(`src/libpvr/src/Volumes/VoxelVolume.cpp`).

Shallow embedding conventions:
* geometric coordinates, ray parameters and matrix entries are exact
  rationals (`ℚ`), the idealisation of the C++ `double` arithmetic;
* quantities whose computation involves a square root or an exponential
  (interval step lengths, Gaussian filter weights) live in `ℝ`;
* fallible operations (`load`, `updateIntersectionHandler`, null-pointer
  dereferences) are modelled with `Except` / `Option`.

Classes and functions of the repository that are not under `src/`
(`Math::intersect`, `Math::cornerPoints`, `Imath::Plane3`,
`Field3D` mappings, `setupVolumeAttr`) are modelled from the spec; each
such definition carries a doc comment starting `Modelled from the spec:`.
-/

namespace PVR

/-- A 3-vector of exact rationals, the model of `pvr::Vector` (`Imath::V3d`). -/
structure Vec3 where
  x : ℚ
  y : ℚ
  z : ℚ
deriving DecidableEq

def Vec3.add (a b : Vec3) : Vec3 := ⟨a.x + b.x, a.y + b.y, a.z + b.z⟩

def Vec3.sub (a b : Vec3) : Vec3 := ⟨a.x - b.x, a.y - b.y, a.z - b.z⟩

def Vec3.neg (a : Vec3) : Vec3 := ⟨-a.x, -a.y, -a.z⟩

def Vec3.smul (q : ℚ) (a : Vec3) : Vec3 := ⟨q * a.x, q * a.y, q * a.z⟩

def Vec3.dot (a b : Vec3) : ℚ := a.x * b.x + a.y * b.y + a.z * b.z

def Vec3.cross (a b : Vec3) : Vec3 :=
  ⟨a.y * b.z - a.z * b.y, a.z * b.x - a.x * b.z, a.x * b.y - a.y * b.x⟩

/-- Squared Euclidean length; the C++ `V3d::length()` is its square root. -/
def Vec3.normSq (a : Vec3) : ℚ := a.x * a.x + a.y * a.y + a.z * a.z

theorem Vec3.normSq_nonneg (a : Vec3) : 0 ≤ a.normSq := by
  have hx := mul_self_nonneg a.x
  have hy := mul_self_nonneg a.y
  have hz := mul_self_nonneg a.z
  unfold Vec3.normSq
  linarith

theorem Vec3.normSq_pos_of_ne (a b : Vec3) (h : a ≠ b) : 0 < (a.sub b).normSq := by
  rcases lt_or_eq_of_le (Vec3.normSq_nonneg (a.sub b)) with hlt | heq
  · exact hlt
  · exfalso
    apply h
    have hx : (a.x - b.x) * (a.x - b.x) = 0 ∧ (a.y - b.y) * (a.y - b.y) = 0 ∧
        (a.z - b.z) * (a.z - b.z) = 0 := by
      have h0 : (a.x - b.x) * (a.x - b.x) + (a.y - b.y) * (a.y - b.y) +
          (a.z - b.z) * (a.z - b.z) = 0 := by
        simpa [Vec3.sub, Vec3.normSq] using heq.symm
      have hx' := mul_self_nonneg (a.x - b.x)
      have hy' := mul_self_nonneg (a.y - b.y)
      have hz' := mul_self_nonneg (a.z - b.z)
      refine ⟨by linarith, by linarith, by linarith⟩
    have ex : a.x = b.x := by
      have := mul_self_eq_zero.mp hx.1; linarith
    have ey : a.y = b.y := by
      have := mul_self_eq_zero.mp hx.2.1; linarith
    have ez : a.z = b.z := by
      have := mul_self_eq_zero.mp hx.2.2; linarith
    cases a; cases b; simp_all

/-- A world-space ray `(pos, dir)` with `ray(t) = pos + t·dir` (`pvr::Ray`). -/
structure Ray where
  pos : Vec3
  dir : Vec3
deriving DecidableEq

/-- `wsRay(t)`, the C++ `Ray::operator()`. -/
def Ray.at (r : Ray) (t : ℚ) : Vec3 := r.pos.add (Vec3.smul t r.dir)

/-- A 3×3 rational matrix given by its three rows. -/
structure Mat3 where
  r0 : Vec3
  r1 : Vec3
  r2 : Vec3
deriving DecidableEq

def Mat3.mulVec (m : Mat3) (v : Vec3) : Vec3 := ⟨m.r0.dot v, m.r1.dot v, m.r2.dot v⟩

def Mat3.det (m : Mat3) : ℚ := m.r0.dot (m.r1.cross m.r2)

def Mat3.scale (q : ℚ) (m : Mat3) : Mat3 :=
  ⟨Vec3.smul q m.r0, Vec3.smul q m.r1, Vec3.smul q m.r2⟩

/-- Adjugate-based inverse; for a singular matrix `1/det = 0` yields the zero
matrix (the singular case is never exercised by the claims). -/
def Mat3.inverse (m : Mat3) : Mat3 :=
  let a := m.r0.x; let b := m.r0.y; let c := m.r0.z
  let d := m.r1.x; let e := m.r1.y; let f := m.r1.z
  let g := m.r2.x; let h := m.r2.y; let i := m.r2.z
  Mat3.scale (1 / m.det)
    ⟨⟨e * i - f * h, c * h - b * i, b * f - c * e⟩,
     ⟨f * g - d * i, a * i - c * g, c * d - a * f⟩,
     ⟨d * h - e * g, b * g - a * h, a * e - b * d⟩⟩

/-- An affine transform: the model of the (affine) `Imath::M44d` matrices held
by a `MatrixFieldMapping`.  `multVecMatrix` is `applyP`, `multDirMatrix` is
`applyD`. -/
structure AffineXf where
  lin : Mat3
  tr : Vec3
deriving DecidableEq

/-- Point transform (`M44d::multVecMatrix`; the matrices involved are affine,
so the projective divide is trivial). -/
def AffineXf.applyP (a : AffineXf) (p : Vec3) : Vec3 := (a.lin.mulVec p).add a.tr

/-- Direction (non-translating) transform, `M44d::multDirMatrix`. -/
def AffineXf.applyD (a : AffineXf) (d : Vec3) : Vec3 := a.lin.mulVec d

/-- Modelled from the spec: `M44d::inverse` ("worldToLocal, localToWorld are
mutual inverses"), realised as the adjugate inverse of the linear part. -/
def AffineXf.inverse (a : AffineXf) : AffineXf :=
  let li := a.lin.inverse
  ⟨li, (li.mulVec a.tr).neg⟩

def affineId : AffineXf := ⟨⟨⟨1, 0, 0⟩, ⟨0, 1, 0⟩, ⟨0, 0, 1⟩⟩, ⟨0, 0, 0⟩⟩

/-- The exact rational value of `std::numeric_limits<double>::max()`, the
sentinel the source uses as a stand-in for ±∞. -/
def dblMax : ℚ := (2 ^ 53 - 1) * 2 ^ 971

/-- A ray-marching interval `(t0, t1, stepLength)` (`pvr::Interval`). -/
structure Interval where
  t0 : ℚ
  t1 : ℚ
  stepLength : ℝ

/-- Builds the interval returned by both intersection handlers:
`stepLength = (t1 - t0) / numSamples`, where `numSamples` is the Euclidean
voxel-space distance, i.e. the square root of `nsq`, the squared distance. -/
noncomputable def mkInterval (t0 t1 nsq : ℚ) : Interval :=
  ⟨t0, t1, ((t1 - t0 : ℚ) : ℝ) / Real.sqrt (nsq : ℚ)⟩

/-- One axis of the slab test: entry/exit parameters against the slab
`0 ≤ coordinate ≤ 1`; `none` means the ray misses (parallel and outside). -/
def slabAxis (pos dir : ℚ) (acc : Option (ℚ × ℚ)) : Option (ℚ × ℚ) :=
  match acc with
  | none => none
  | some (t0, t1) =>
    if dir = 0 then
      if 0 ≤ pos ∧ pos ≤ 1 then some (t0, t1) else none
    else
      some (max t0 (min ((0 - pos) / dir) ((1 - pos) / dir)),
            min t1 (max ((0 - pos) / dir) ((1 - pos) / dir)))

/-- Modelled from the spec: `Math::intersect` (not under `src/`), the slab
test of a ray against the canonical unit box `[0,1]³` (`Bounds::zeroOne()`):
per axis the entry/exit parameters are accumulated by max/min, a parallel
axis outside its slab is a miss, and the ray hits iff the accumulated
`t0 ≤ t1`.  The accumulators start at the `±dblMax` sentinels, exactly as the
frustum handler in the source initialises its own `t0`/`t1`. -/
def slab (r : Ray) : Option (ℚ × ℚ) :=
  match slabAxis r.pos.z r.dir.z
      (slabAxis r.pos.y r.dir.y
        (slabAxis r.pos.x r.dir.x (some (-dblMax, dblMax)))) with
  | none => none
  | some (t0, t1) => if t0 ≤ t1 then some (t0, t1) else none

theorem slab_le {r : Ray} {a b : ℚ} (h : slab r = some (a, b)) : a ≤ b := by
  unfold slab at h
  rcases hax : slabAxis r.pos.z r.dir.z
      (slabAxis r.pos.y r.dir.y
        (slabAxis r.pos.x r.dir.x (some (-dblMax, dblMax)))) with _ | ⟨t0, t1⟩ <;>
    rw [hax] at h
  · simp at h
  · by_cases hle : t0 ≤ t1
    · simp [hle] at h
      exact h.1 ▸ h.2 ▸ hle
    · simp [hle] at h

/-- The state of `UniformMappingIntersection`: the precomputed world→local and
world→voxel transforms (the constructor also stores `localToWorld`, which
`intersect` never reads). -/
structure UniformMappingIntersection where
  worldToLocal : AffineXf
  worldToVoxel : AffineXf

/-- `UniformMappingIntersection::intersect` (VoxelVolume.cpp:89-112):
transform the ray to local space, slab-test it against the unit box, and on a
hit return the single interval whose step length divides `t1 - t0` by the
voxel-space distance between the world-ray endpoints. -/
noncomputable def UniformMappingIntersection.intersect
    (h : UniformMappingIntersection) (wsRay : Ray) : List Interval :=
  match slab ⟨h.worldToLocal.applyP wsRay.pos, h.worldToLocal.applyD wsRay.dir⟩ with
  | some (t0, t1) =>
    let wsNear := wsRay.at t0
    let wsFar := wsRay.at t1
    let vsNear := h.worldToVoxel.applyP wsNear
    let vsFar := h.worldToVoxel.applyP wsFar
    [mkInterval t0 t1 ((vsFar.sub vsNear).normSq)]
  | none => []

/-- Modelled from the spec: `Imath::Plane3d`, a plane `normal · p = distance`.
The source's planes are built with normalised normals; since every operation
`intersect` performs on a plane (the parallel test, the ray-plane parameter
and the sign of `dot(dir, normal)`) is invariant under positive scaling of
`(normal, distance)`, the model keeps the unnormalised cross-product normal. -/
structure Plane where
  normal : Vec3
  distance : ℚ
deriving DecidableEq

/-- Modelled from the spec: `Plane3::intersectT` — "compute the ray–plane
intersection parameter `t`"; a plane the ray is parallel to
(`normal · dir = 0`) contributes no constraint (`none`). -/
def Plane.intersectT (p : Plane) (r : Ray) : Option ℚ :=
  if p.normal.dot r.dir = 0 then none
  else some ((p.distance - p.normal.dot r.pos) / (p.normal.dot r.dir))

/-- Modelled from the spec: the `Plane(p1, p2, p3)` constructor — the plane
through three points, with normal `(p2 - p1) × (p3 - p1)` (unnormalised, see
`Plane`). -/
def mkPlane (p1 p2 p3 : Vec3) : Plane :=
  let n := (p2.sub p1).cross (p3.sub p1)
  ⟨n, n.dot p1⟩

/-- The state of `FrustumMappingIntersection`: the six precomputed bounding
planes (`m_planes`) and the mapping's world→voxel transform (the only part of
`m_mapping` that `intersect` reads). -/
structure FrustumMappingIntersection where
  planes : List Plane
  worldToVoxel : Vec3 → Vec3

/-- The body of the plane loop of `FrustumMappingIntersection::intersect`
(VoxelVolume.cpp:146-158): a non-opposing plane (`dir · normal > 0`) tightens
`t1`, an opposing plane tightens `t0`, a parallel plane is skipped. -/
def frustumStep (wsRay : Ray) (acc : ℚ × ℚ) (p : Plane) : ℚ × ℚ :=
  match p.intersectT wsRay with
  | none => acc
  | some t =>
    if wsRay.dir.dot p.normal > 0 then (acc.1, min acc.2 t)
    else (max acc.1 t, acc.2)

/-- `FrustumMappingIntersection::intersect` (VoxelVolume.cpp:141-172):
fold the plane constraints starting from the `±dblMax` sentinels; if
`t0 < t1`, clamp `t0` to `max t0 0` and return the single interval, with the
step length derived exactly as in the uniform case. -/
noncomputable def FrustumMappingIntersection.intersect
    (h : FrustumMappingIntersection) (wsRay : Ray) : List Interval :=
  let tp := h.planes.foldl (frustumStep wsRay) (-dblMax, dblMax)
  if tp.1 < tp.2 then
    let t0 := max tp.1 0
    let t1 := tp.2
    let wsNear := wsRay.at t0
    let wsFar := wsRay.at t1
    let vsNear := h.worldToVoxel wsNear
    let vsFar := h.worldToVoxel wsFar
    [mkInterval t0 t1 ((vsFar.sub vsNear).normSq)]
  else []

/-- `Field3D::MatrixFieldMapping` as consumed by this core: an affine
local→world transform and the composed world→voxel transform (its two
accessors `localToWorld()` and `worldToVoxel()`). -/
structure MatrixFieldMapping where
  localToWorld : AffineXf
  worldToVoxel : AffineXf

/-- `Field3D::FrustumFieldMapping` as consumed by this core: a projective
local→world transform and a world→voxel transform, kept abstract. -/
structure FrustumFieldMapping where
  localToWorld : Vec3 → Vec3
  worldToVoxel : Vec3 → Vec3

/-- The `UniformMappingIntersection` constructor (VoxelVolume.cpp:79-85):
stores the inverse of the mapping's local→world matrix and its world→voxel
matrix. -/
def UniformMappingIntersection.ofMapping
    (m : MatrixFieldMapping) : UniformMappingIntersection :=
  ⟨m.localToWorld.inverse, m.worldToVoxel⟩

/-- Modelled from the spec: `Math::cornerPoints (Bounds::zeroOne())` — "the 8
binary combinations of {0,1}³".  The enumeration order (z fastest) is chosen
so that the six face planes the source constructor builds from these corners
receive a consistent outward orientation, the only orientation under which a
ray traversing the frustum yields `t0 < t1` (spec §8, central-axis ray). -/
def cornerPointsZeroOne : List Vec3 :=
  [⟨0, 0, 0⟩, ⟨0, 0, 1⟩, ⟨0, 1, 0⟩, ⟨0, 1, 1⟩,
   ⟨1, 0, 0⟩, ⟨1, 0, 1⟩, ⟨1, 1, 0⟩, ⟨1, 1, 1⟩]

/-- The `FrustumMappingIntersection` constructor (VoxelVolume.cpp:116-137):
map the eight unit-cube corners to world space and build one plane per cube
face from the source's corner triples. -/
def FrustumMappingIntersection.ofMapping
    (f : FrustumFieldMapping) : FrustumMappingIntersection :=
  let w0 := f.localToWorld ⟨0, 0, 0⟩
  let w1 := f.localToWorld ⟨0, 0, 1⟩
  let w2 := f.localToWorld ⟨0, 1, 0⟩
  let w3 := f.localToWorld ⟨0, 1, 1⟩
  let w4 := f.localToWorld ⟨1, 0, 0⟩
  let w5 := f.localToWorld ⟨1, 0, 1⟩
  let w6 := f.localToWorld ⟨1, 1, 0⟩
  let w7 := f.localToWorld ⟨1, 1, 1⟩
  ⟨[mkPlane w4 w0 w6, mkPlane w1 w5 w3, mkPlane w4 w5 w0,
    mkPlane w2 w3 w6, mkPlane w0 w1 w2, mkPlane w5 w4 w7],
   f.worldToVoxel⟩

/-- An integer 3-vector (`Imath::V3i`). -/
structure V3i where
  x : ℤ
  y : ℤ
  z : ℤ
deriving DecidableEq

/-- An inclusive integer bounding box (`Imath::Box3i`), the data window. -/
structure Box3i where
  min : V3i
  max : V3i
deriving DecidableEq

/-- `Field3D::Field<Data_T>` as consumed by the samplers: a data window and a
total value lookup (values of `Data_T` are idealised as reals). -/
structure GField where
  dataWindow : Box3i
  value : ℤ → ℤ → ℤ → ℝ

/-- `Field3D::discToCont`: integer index `i` is voxel center `i + 0.5`. -/
def discToCont (i : ℤ) : ℚ := (i : ℚ) + 1 / 2

/-- The per-axis neighbour clamp of `GaussianFieldInterp::sample`
(VoxelVolume.cpp:210-212): `max(dataWindow.min, min(i, dataWindow.max))`. -/
def clampIdx (lo hi i : ℤ) : ℤ := max lo (min i hi)

/-- `GaussianFieldInterp::Gaussian` (VoxelVolume.cpp:222-238): the truncated
Gaussian kernel with parameters `alpha`, `width`; the stored
`m_exp = exp(-alpha·width²)` appears inline in `eval`. -/
structure Gaussian where
  alpha : ℚ
  width : ℚ

/-- `Gaussian::eval(x) = max(0, exp(-alpha·x²) - exp(-alpha·width²))`. -/
noncomputable def Gaussian.eval (g : Gaussian) (x : ℚ) : ℝ :=
  max 0 (Real.exp (-(g.alpha : ℝ) * (x : ℝ) ^ 2) -
         Real.exp (-(g.alpha : ℝ) * (g.width : ℝ) ^ 2))

/-- `Gaussian::eval(x, y, z) = eval x * eval y * eval z`. -/
noncomputable def Gaussian.eval3 (g : Gaussian) (x y z : ℚ) : ℝ :=
  g.eval x * g.eval y * g.eval z

/-- The per-axis clamp `max(0.5, vsP)` of `GaussianFieldInterp::sample`
(VoxelVolume.cpp:188-190). -/
def gaussClamped (vsP : Vec3) : Vec3 :=
  ⟨max (1 / 2) vsP.x, max (1 / 2) vsP.y, max (1 / 2) vsP.z⟩

/-- The lower-left corner `c = floor(clampedVsP - 0.5) - 1` of the 4×4×4
neighbourhood (VoxelVolume.cpp:191-198). -/
def gaussCorner (clamped : Vec3) : V3i :=
  ⟨⌊clamped.x - 1 / 2⌋ - 1, ⌊clamped.y - 1 / 2⌋ - 1, ⌊clamped.z - 1 / 2⌋ - 1⟩

/-- The separable tap weight
`gaussian.eval(discToCont i - clampedVsP.x, ..., ...)` with the source's
constants `Gaussian(2.0, 2.0)` (VoxelVolume.cpp:200, 207-209). -/
noncomputable def gaussWeight (clamped : Vec3) (i j k : ℤ) : ℝ :=
  (Gaussian.mk 2 2).eval3 (discToCont i - clamped.x) (discToCont j - clamped.y)
    (discToCont k - clamped.z)

/-- The `normalization` accumulator of `GaussianFieldInterp::sample`: the sum
of the tap weights over the 4×4×4 neighbourhood (VoxelVolume.cpp:204-216). -/
noncomputable def gaussNormalization (vsP : Vec3) : ℝ :=
  let clamped := gaussClamped vsP
  let c := gaussCorner clamped
  ∑ ko ∈ Finset.range 4, ∑ jo ∈ Finset.range 4, ∑ io ∈ Finset.range 4,
    gaussWeight clamped (c.x + io) (c.y + jo) (c.z + ko)

/-- The `value` accumulator of `GaussianFieldInterp::sample`: the sum of
`weight * data.value(ic, jc, kc)` with each neighbour index clamped to the
data window (VoxelVolume.cpp:204-217). -/
noncomputable def gaussNumerator (data : GField) (vsP : Vec3) : ℝ :=
  let clamped := gaussClamped vsP
  let c := gaussCorner clamped
  ∑ ko ∈ Finset.range 4, ∑ jo ∈ Finset.range 4, ∑ io ∈ Finset.range 4,
    gaussWeight clamped (c.x + io) (c.y + jo) (c.z + ko) *
      data.value (clampIdx data.dataWindow.min.x data.dataWindow.max.x (c.x + io))
        (clampIdx data.dataWindow.min.y data.dataWindow.max.y (c.y + jo))
        (clampIdx data.dataWindow.min.z data.dataWindow.max.z (c.z + ko))

/-- `GaussianFieldInterp::sample` (VoxelVolume.cpp:183-221): the two loop
accumulators followed by the final `value / normalization` division. -/
noncomputable def GaussianFieldInterp.sample (data : GField) (vsP : Vec3) : ℝ :=
  gaussNumerator data vsP / gaussNormalization vsP

/-- The three resolution states of a `VolumeAttr` index: unresolved
(`IndexNotSet`), resolved-invalid (`IndexInvalid`), or a valid index. -/
inductive AttrState where
  | attrNotSet : AttrState
  | attrInvalid : AttrState
  | attrValid : ℕ → AttrState
deriving DecidableEq

/-- `pvr::VolumeAttr`: an attribute name with its cached resolution state. -/
structure VolumeAttr where
  name : String
  state : AttrState
deriving DecidableEq

/-- Modelled from the spec: `setupVolumeAttr(attribute, name, index)` (not
under `src/`) — "resolve it against the buffer's attribute name (index 0 if
names match, else mark invalid)". -/
def setupVolumeAttr (attr : VolumeAttr) (bufAttr : String) (index : ℕ) : VolumeAttr :=
  if attr.name = bufAttr then ⟨attr.name, .attrValid index⟩ else ⟨attr.name, .attrInvalid⟩

/-- The mapping variants distinguished by `updateIntersectionHandler`'s
dynamic casts: `MatrixFieldMapping`, `FrustumFieldMapping`, or any other
`FieldMapping` subclass (carrying only its world→voxel transform). -/
inductive FieldMapping where
  | matrix : MatrixFieldMapping → FieldMapping
  | frustum : FrustumFieldMapping → FieldMapping
  | other : (Vec3 → Vec3) → FieldMapping

/-- `FieldMapping::worldToVoxel` across the variants. -/
def FieldMapping.worldToVoxel : FieldMapping → Vec3 → Vec3
  | .matrix m => m.worldToVoxel.applyP
  | .frustum f => f.worldToVoxel
  | .other w => w

/-- `pvr::VoxelBuffer` as consumed by this core: one attribute name (the
source's `attribute` member; `attribute` is a Lean keyword), a data window,
an optional mapping (the `mapping()` pointer may be null) and the voxel
data. -/
structure VoxelBuffer where
  attrName : String
  dataWindow : Box3i
  mapping : Option FieldMapping
  value : ℤ → ℤ → ℤ → ℝ

/-- `isInBounds` (VoxelVolume.cpp:44-53): the per-dimension loop comparing
the continuous coordinate against the discrete window bounds, unrolled. -/
def isInBounds (vsP : Vec3) (dataWindow : Box3i) : Bool :=
  if vsP.x < (dataWindow.min.x : ℚ) ∨ vsP.x > (dataWindow.max.x : ℚ) then false
  else if vsP.y < (dataWindow.min.y : ℚ) ∨ vsP.y > (dataWindow.max.y : ℚ) then false
  else if vsP.z < (dataWindow.min.z : ℚ) ∨ vsP.z > (dataWindow.max.z : ℚ) then false
  else true

/-- `VoxelVolume::sample` (VoxelVolume.cpp:252-272).  The linear
reconstruction filter (`LinearFieldInterp`, an external `Field3D` class) is
the abstract parameter `linInterp`; `none` models the null-pointer
dereference of a buffer without a mapping; `some 0` is `Colors::zero()`. -/
def VoxelVolume.sample (linInterp : VoxelBuffer → Vec3 → ℝ) (buf : VoxelBuffer)
    (wsP : Vec3) (attrIn : VolumeAttr) : Option ℝ :=
  let attr := match attrIn.state with
    | .attrNotSet => setupVolumeAttr attrIn buf.attrName 0
    | _ => attrIn
  if attr.state = .attrInvalid then some 0
  else
    match buf.mapping with
    | none => none
    | some mp =>
      let vsP := mp.worldToVoxel wsP
      if isInBounds vsP buf.dataWindow then some (linInterp buf vsP) else some 0

/-- The three exceptions `updateIntersectionHandler` can throw:
`MissingBufferException`, `MissingMappingException`,
`UnsupportedMappingException`. -/
inductive MappingError where
  | missingBuffer : MappingError
  | missingMapping : MappingError
  | unsupportedMapping : MappingError
deriving DecidableEq

/-- The polymorphic `BufferIntersection::Ptr` held in
`m_intersectionHandler`. -/
inductive BufferIntersection where
  | uniform : UniformMappingIntersection → BufferIntersection
  | frustum : FrustumMappingIntersection → BufferIntersection

/-- Dispatch of `BufferIntersection::intersect` to the concrete handler. -/
noncomputable def BufferIntersection.intersect (h : BufferIntersection) (r : Ray) :
    List Interval :=
  match h with
  | .uniform u => u.intersect r
  | .frustum f => f.intersect r

/-- The mutable state of a `VoxelVolume`: `m_buffer` and
`m_intersectionHandler`. -/
structure VoxelVolumeState where
  buffer : Option VoxelBuffer
  handler : Option BufferIntersection

/-- `VoxelVolume::updateIntersectionHandler` (VoxelVolume.cpp:321-340):
throw if the buffer or its mapping is absent, otherwise build the handler
matching the mapping variant, throwing on an unsupported variant. -/
def VoxelVolume.updateIntersectionHandler (s : VoxelVolumeState) :
    Except MappingError BufferIntersection :=
  match s.buffer with
  | none => .error .missingBuffer
  | some b =>
    match b.mapping with
    | none => .error .missingMapping
    | some (.matrix m) => .ok (.uniform (UniformMappingIntersection.ofMapping m))
    | some (.frustum f) => .ok (.frustum (FrustumMappingIntersection.ofMapping f))
    | some (.other _) => .error .unsupportedMapping

/-- `VoxelVolume::setBuffer` (VoxelVolume.cpp:313-317): assign the buffer,
then rebuild the handler; an exception from the rebuild propagates with the
buffer already replaced. -/
def VoxelVolume.setBuffer (b : VoxelBuffer) (s : VoxelVolumeState) :
    VoxelVolumeState × Except MappingError Unit :=
  let s1 : VoxelVolumeState := ⟨some b, s.handler⟩
  match VoxelVolume.updateIntersectionHandler s1 with
  | .ok h => (⟨some b, some h⟩, .ok ())
  | .error e => (s1, .error e)

/-- What `Field3DInputFile::open` plus `readVectorLayers` yield for a path:
either the open fails, or a list of fields, each of which either casts to a
`DenseBuffer` (carrying its data) or does not. -/
inductive LoadedField where
  | dense : VoxelBuffer → LoadedField
  | nonDense : LoadedField

/-- The outcome of the external reader consumed by `load`. -/
inductive LoadFile where
  | openFail : LoadFile
  | fields : List LoadedField → LoadFile

/-- `VoxelVolume::load` (VoxelVolume.cpp:284-309): warn and return early if
the open fails or no fields load; otherwise assign the buffer only when the
first field casts to a dense buffer (warning otherwise), and in either of
those cases fall through to `updateIntersectionHandler`, whose exception
propagates. -/
def VoxelVolume.load (f : LoadFile) (s : VoxelVolumeState) :
    VoxelVolumeState × Except MappingError Unit :=
  match f with
  | .openFail => (s, .ok ())
  | .fields [] => (s, .ok ())
  | .fields (fv :: _) =>
    let s1 : VoxelVolumeState := match fv with
      | .dense b => ⟨some b, s.handler⟩
      | .nonDense => s
    match VoxelVolume.updateIntersectionHandler s1 with
    | .ok h => (⟨s1.buffer, some h⟩, .ok ())
    | .error e => (s1, .error e)

/-- `VoxelVolume::attributeNames` (VoxelVolume.cpp:245-248): the one-element
vector `[m_buffer->attribute]`; `none` models the null-buffer dereference. -/
def VoxelVolume.attributeNames (s : VoxelVolumeState) : Option (List String) :=
  s.buffer.map fun b => [b.attrName]

/-- `VoxelVolume::intersect` (VoxelVolume.cpp:276-280): delegate to the
handler; `none` models the asserted-against missing handler. -/
noncomputable def VoxelVolume.intersect (s : VoxelVolumeState) (r : Ray) :
    Option (List Interval) :=
  s.handler.map fun h => h.intersect r

/-! ### Specification-side definitions

These follow the wording of the claims (not the source); the refinement
theorems below compare them with the source translations above. -/

/-- Spec wording of C1: slab-test the local-space ray; on overlap return
exactly `[(t0, t1, (t1 - t0) / numSamples)]` with `numSamples` the Euclidean
voxel-space distance between `ray(t0)` and `ray(t1)` mapped through
`worldToVoxel`; otherwise the empty list. -/
noncomputable def uniformIntersectSpec (h : UniformMappingIntersection)
    (wsRay : Ray) : List Interval :=
  match slab ⟨h.worldToLocal.applyP wsRay.pos, h.worldToLocal.applyD wsRay.dir⟩ with
  | none => []
  | some (t0, t1) =>
    let voxelNear := h.worldToVoxel.applyP (wsRay.at t0)
    let voxelFar := h.worldToVoxel.applyP (wsRay.at t1)
    let numSamples : ℝ := Real.sqrt ((voxelFar.sub voxelNear).normSq)
    [⟨t0, t1, ((t1 - t0 : ℚ) : ℝ) / numSamples⟩]

/-- Spec wording of C2: the ray-plane parameter of a far constraint
(`dot(ray.direction, plane.normal) > 0`). -/
def farT (r : Ray) (p : Plane) : Option ℚ :=
  match p.intersectT r with
  | some t => if r.dir.dot p.normal > 0 then some t else none
  | none => none

/-- Spec wording of C2: the ray-plane parameter of a near constraint
(negative `dot(ray.direction, plane.normal)`). -/
def nearT (r : Ray) (p : Plane) : Option ℚ :=
  match p.intersectT r with
  | some t => if r.dir.dot p.normal < 0 then some t else none
  | none => none

/-- Spec wording of C2: collect the near/far constraints of the six planes,
take `t0` as the max of the near parameters and `t1` as the min of the far
parameters; if `t0 < t1` clamp `t0` to `max t0 0` and return one interval
with the step length derived as in the uniform case, else return the empty
list. -/
noncomputable def frustumIntersectSpec (h : FrustumMappingIntersection)
    (wsRay : Ray) : List Interval :=
  let t0 := (h.planes.filterMap (nearT wsRay)).foldl max (-dblMax)
  let t1 := (h.planes.filterMap (farT wsRay)).foldl min dblMax
  if t0 < t1 then
    let t0c := max t0 0
    let voxelNear := h.worldToVoxel (wsRay.at t0c)
    let voxelFar := h.worldToVoxel (wsRay.at t1)
    [⟨t0c, t1, ((t1 - t0c : ℚ) : ℝ) / Real.sqrt ((voxelFar.sub voxelNear).normSq)⟩]
  else []

/-- Spec wording of C8: the per-axis kernel
`eval(x) = max(0, exp(-2·x²) - exp(-8))`. -/
noncomputable def gaussEvalSpec (x : ℚ) : ℝ :=
  max 0 (Real.exp (-2 * (x : ℝ) ^ 2) - Real.exp (-8))

/-- Spec wording of C8: clamp each axis of `p` to `≥ 0.5`, set
`c = floor(clampedP - 0.5) - 1` per axis, and return
`(Σ weight·value) / (Σ weight)` over `i ∈ [c.x, c.x+3]` (`j`, `k` similarly),
with the separable weight the product of per-axis kernels at
`(i + 0.5) - clampedP`, and every neighbour index clamped to the data window
before lookup. -/
noncomputable def gaussianSampleSpec (data : GField) (vsP : Vec3) : ℝ :=
  let cl : Vec3 := ⟨max (1 / 2) vsP.x, max (1 / 2) vsP.y, max (1 / 2) vsP.z⟩
  let cx : ℤ := ⌊cl.x - 1 / 2⌋ - 1
  let cy : ℤ := ⌊cl.y - 1 / 2⌋ - 1
  let cz : ℤ := ⌊cl.z - 1 / 2⌋ - 1
  let w : ℤ → ℤ → ℤ → ℝ := fun i j k =>
    gaussEvalSpec ((i : ℚ) + 1 / 2 - cl.x) * gaussEvalSpec ((j : ℚ) + 1 / 2 - cl.y) *
      gaussEvalSpec ((k : ℚ) + 1 / 2 - cl.z)
  let v : ℤ → ℤ → ℤ → ℝ := fun i j k =>
    data.value (max data.dataWindow.min.x (min i data.dataWindow.max.x))
      (max data.dataWindow.min.y (min j data.dataWindow.max.y))
      (max data.dataWindow.min.z (min k data.dataWindow.max.z))
  (∑ k ∈ Finset.Icc cz (cz + 3), ∑ j ∈ Finset.Icc cy (cy + 3),
      ∑ i ∈ Finset.Icc cx (cx + 3), w i j k * v i j k) /
    (∑ k ∈ Finset.Icc cz (cz + 3), ∑ j ∈ Finset.Icc cy (cy + 3),
      ∑ i ∈ Finset.Icc cx (cx + 3), w i j k)

/-! ### Helper lemmas -/

theorem Vec3.dot_comm (a b : Vec3) : a.dot b = b.dot a := by
  unfold Vec3.dot; ring

theorem uniform_intersect_of_slab_some {h : UniformMappingIntersection} {r : Ray}
    {a b : ℚ}
    (hs : slab ⟨h.worldToLocal.applyP r.pos, h.worldToLocal.applyD r.dir⟩ = some (a, b)) :
    h.intersect r =
      [mkInterval a b
        (((h.worldToVoxel.applyP (r.at b)).sub (h.worldToVoxel.applyP (r.at a))).normSq)] := by
  unfold UniformMappingIntersection.intersect
  rw [hs]

theorem uniform_intersect_of_slab_none {h : UniformMappingIntersection} {r : Ray}
    (hs : slab ⟨h.worldToLocal.applyP r.pos, h.worldToLocal.applyD r.dir⟩ = none) :
    h.intersect r = [] := by
  unfold UniformMappingIntersection.intersect
  rw [hs]

theorem frustum_intersect_of_fold {h : FrustumMappingIntersection} {r : Ray}
    {t0 t1 : ℚ}
    (hf : h.planes.foldl (frustumStep r) (-dblMax, dblMax) = (t0, t1)) :
    h.intersect r =
      if t0 < t1 then
        [mkInterval (max t0 0) t1
          (((h.worldToVoxel (r.at t1)).sub (h.worldToVoxel (r.at (max t0 0)))).normSq)]
      else [] := by
  unfold FrustumMappingIntersection.intersect
  rw [hf]

theorem mkInterval_stepLength_pos {a b nsq : ℚ} (hab : a < b) (hnsq : 0 < nsq) :
    0 < (mkInterval a b nsq).stepLength := by
  unfold mkInterval
  apply div_pos
  · exact_mod_cast sub_pos.mpr hab
  · exact Real.sqrt_pos.mpr (by exact_mod_cast hnsq)

/-- The single fold of the source's plane loop computes the max of the near
constraints and the min of the far constraints. -/
theorem frustum_fold_eq (r : Ray) (l : List Plane) (a b : ℚ) :
    l.foldl (frustumStep r) (a, b) =
      ((l.filterMap (nearT r)).foldl max a, (l.filterMap (farT r)).foldl min b) := by
  induction l generalizing a b with
  | nil => rfl
  | cons p l ih =>
    rw [List.foldl_cons, List.filterMap_cons, List.filterMap_cons]
    rcases hit : p.intersectT r with _ | t
    · have hstep : frustumStep r (a, b) p = (a, b) := by
        unfold frustumStep; rw [hit]
      have hnear : nearT r p = none := by unfold nearT; rw [hit]
      have hfar : farT r p = none := by unfold farT; rw [hit]
      rw [hstep, hnear, hfar, ih]
    · have hne : p.normal.dot r.dir ≠ 0 := by
        intro h0
        unfold Plane.intersectT at hit
        rw [if_pos h0] at hit
        exact Option.noConfusion hit
      by_cases hd : r.dir.dot p.normal > 0
      · have hstep : frustumStep r (a, b) p = (a, min b t) := by
          unfold frustumStep; rw [hit]; simp [hd]
        have hnear : nearT r p = none := by
          unfold nearT; rw [hit]; simp [not_lt_of_gt hd]
        have hfar : farT r p = some t := by
          unfold farT; rw [hit]; simp [hd]
        rw [hstep, hnear, hfar, ih, List.foldl_cons]
      · have hd' : r.dir.dot p.normal < 0 := by
          rcases lt_trichotomy (r.dir.dot p.normal) 0 with h | h | h
          · exact h
          · exact absurd (by rw [Vec3.dot_comm] at h; exact h) hne
          · exact absurd h hd
        have hstep : frustumStep r (a, b) p = (max a t, b) := by
          unfold frustumStep; rw [hit]; simp [hd]
        have hnear : nearT r p = some t := by
          unfold nearT; rw [hit]; simp [hd']
        have hfar : farT r p = none := by
          unfold farT; rw [hit]; simp [not_lt.mp hd]
        rw [hstep, hnear, hfar, ih, List.foldl_cons]

/-- Any interval produced by the uniform handler comes from a successful slab
test, with the step length built by `mkInterval`. -/
theorem mem_uniform_intersect {h : UniformMappingIntersection} {r : Ray}
    {iv : Interval} (hm : iv ∈ h.intersect r) :
    ∃ a b, slab ⟨h.worldToLocal.applyP r.pos, h.worldToLocal.applyD r.dir⟩ = some (a, b) ∧
      iv = mkInterval a b
        (((h.worldToVoxel.applyP (r.at b)).sub (h.worldToVoxel.applyP (r.at a))).normSq) := by
  rcases hs : slab ⟨h.worldToLocal.applyP r.pos, h.worldToLocal.applyD r.dir⟩ with _ | ⟨a, b⟩
  · rw [uniform_intersect_of_slab_none hs] at hm
    exact absurd hm (List.not_mem_nil iv)
  · rw [uniform_intersect_of_slab_some hs] at hm
    exact ⟨a, b, rfl, List.mem_singleton.mp hm⟩

/-- Any interval produced by the frustum handler comes from a fold result
with `t0 < t1`, clamped and packaged by `mkInterval`. -/
theorem mem_frustum_intersect {h : FrustumMappingIntersection} {r : Ray}
    {iv : Interval} (hm : iv ∈ h.intersect r) :
    ∃ t0 t1, h.planes.foldl (frustumStep r) (-dblMax, dblMax) = (t0, t1) ∧ t0 < t1 ∧
      iv = mkInterval (max t0 0) t1
        (((h.worldToVoxel (r.at t1)).sub (h.worldToVoxel (r.at (max t0 0)))).normSq) := by
  rcases hf : h.planes.foldl (frustumStep r) (-dblMax, dblMax) with ⟨t0, t1⟩
  rw [frustum_intersect_of_fold hf] at hm
  by_cases hlt : t0 < t1
  · rw [if_pos hlt] at hm
    exact ⟨t0, t1, rfl, hlt, List.mem_singleton.mp hm⟩
  · rw [if_neg hlt] at hm
    exact absurd hm (List.not_mem_nil iv)

theorem uniform_t0_le_t1 {h : UniformMappingIntersection} {r : Ray} {iv : Interval}
    (hm : iv ∈ h.intersect r) : iv.t0 ≤ iv.t1 := by
  obtain ⟨a, b, hs, rfl⟩ := mem_uniform_intersect hm
  exact slab_le hs

theorem uniform_step_pos {h : UniformMappingIntersection} {r : Ray} {iv : Interval}
    (hm : iv ∈ h.intersect r) (hlt : iv.t0 < iv.t1)
    (hne : h.worldToVoxel.applyP (r.at iv.t0) ≠ h.worldToVoxel.applyP (r.at iv.t1)) :
    0 < iv.stepLength := by
  obtain ⟨a, b, hs, rfl⟩ := mem_uniform_intersect hm
  exact mkInterval_stepLength_pos hlt (Vec3.normSq_pos_of_ne _ _ (Ne.symm hne))

theorem frustum_t0_le_t1 {h : FrustumMappingIntersection} {r : Ray} {iv : Interval}
    (hm : iv ∈ h.intersect r) (h1 : 0 ≤ iv.t1) : iv.t0 ≤ iv.t1 := by
  obtain ⟨t0, t1, hf, hlt, rfl⟩ := mem_frustum_intersect hm
  exact max_le (le_of_lt hlt) h1

theorem frustum_step_pos {h : FrustumMappingIntersection} {r : Ray} {iv : Interval}
    (hm : iv ∈ h.intersect r) (hlt : iv.t0 < iv.t1)
    (hne : h.worldToVoxel (r.at iv.t0) ≠ h.worldToVoxel (r.at iv.t1)) :
    0 < iv.stepLength := by
  obtain ⟨t0, t1, hf, _, rfl⟩ := mem_frustum_intersect hm
  exact mkInterval_stepLength_pos hlt (Vec3.normSq_pos_of_ne _ _ (Ne.symm hne))

/-- Reindexing of a length-4 integer interval sum to offsets `0..3`. -/
theorem sum_Icc_four (c : ℤ) (f : ℤ → ℝ) :
    ∑ i ∈ Finset.Icc c (c + 3), f i = ∑ io ∈ Finset.range 4, f (c + io) := by
  have hmap : Finset.Icc c (c + 3) =
      (Finset.range 4).map
        (⟨fun n : ℕ => c + (n : ℤ), by intro a b hab; simp only at hab; omega⟩ :
          Function.Embedding ℕ ℤ) := by
    ext x
    simp only [Finset.mem_Icc, Finset.mem_map, Finset.mem_range,
      Function.Embedding.coeFn_mk]
    constructor
    · intro hx
      exact ⟨(x - c).toNat, by omega, by omega⟩
    · rintro ⟨n, hn, rfl⟩
      omega
  rw [hmap, Finset.sum_map]
  rfl

theorem gaussEval_nonneg (g : Gaussian) (x : ℚ) : 0 ≤ g.eval x := le_max_left _ _

theorem gaussWeight_nonneg (cl : Vec3) (i j k : ℤ) : 0 ≤ gaussWeight cl i j k :=
  mul_nonneg (mul_nonneg (gaussEval_nonneg _ _) (gaussEval_nonneg _ _))
    (gaussEval_nonneg _ _)

/-- The source's kernel `Gaussian(2, 2)` is strictly positive strictly inside
the truncation radius. -/
theorem gaussEval_pos {x : ℚ} (hx : (x : ℝ) ^ 2 < 4) :
    0 < (Gaussian.mk 2 2).eval x := by
  unfold Gaussian.eval
  have h1 : Real.exp (-((2 : ℚ) : ℝ) * ((2 : ℚ) : ℝ) ^ 2) <
      Real.exp (-((2 : ℚ) : ℝ) * (x : ℝ) ^ 2) := by
    apply Real.exp_lt_exp.mpr
    push_cast
    nlinarith
  exact lt_max_of_lt_right (sub_pos.mpr h1)

/-- The tap at offset 1 from the neighbourhood corner has per-axis distance
`floor p - p ∈ (-1, 0]` from the clamped sample point, hence lies strictly
inside the kernel's truncation radius. -/
theorem gauss_center_weight_pos (cl : Vec3) :
    0 < gaussWeight cl ((gaussCorner cl).x + 1) ((gaussCorner cl).y + 1)
      ((gaussCorner cl).z + 1) := by
  unfold gaussWeight Gaussian.eval3 gaussCorner discToCont
  have key : ∀ q : ℚ, 0 < (Gaussian.mk 2 2).eval ((((⌊q - 1 / 2⌋ - 1 + 1 : ℤ) : ℚ) + 1 / 2 - q)) := by
    intro q
    apply gaussEval_pos
    have hfl : (⌊q - 1 / 2⌋ : ℚ) ≤ q - 1 / 2 := Int.floor_le _
    have hfu : q - 1 / 2 < (⌊q - 1 / 2⌋ : ℚ) + 1 := Int.lt_floor_add_one _
    have hq : |((⌊q - 1 / 2⌋ - 1 + 1 : ℤ) : ℚ) + 1 / 2 - q| ≤ 1 := by
      rw [abs_le]
      constructor <;> · push_cast; linarith
    have hq' : |(((((⌊q - 1 / 2⌋ - 1 + 1 : ℤ) : ℚ) + 1 / 2 - q) : ℚ) : ℝ)| ≤ 1 := by
      exact_mod_cast (by exact_mod_cast hq : |((⌊q - 1 / 2⌋ - 1 + 1 : ℤ) : ℚ) + 1 / 2 - q| ≤ 1)
    nlinarith [abs_nonneg ((((((⌊q - 1 / 2⌋ - 1 + 1 : ℤ) : ℚ) + 1 / 2 - q) : ℚ) : ℝ)),
      sq_abs (((((⌊q - 1 / 2⌋ - 1 + 1 : ℤ) : ℚ) + 1 / 2 - q) : ℚ) : ℝ)]
  exact mul_pos (mul_pos (key cl.x) (key cl.y)) (key cl.z)

/-- The source's unrolled bounds loop tests inclusive per-axis containment of
the continuous coordinate between the integer window bounds. -/
theorem isInBounds_iff (v : Vec3) (dw : Box3i) :
    isInBounds v dw = true ↔
      (((dw.min.x : ℚ) ≤ v.x ∧ v.x ≤ (dw.max.x : ℚ)) ∧
       ((dw.min.y : ℚ) ≤ v.y ∧ v.y ≤ (dw.max.y : ℚ)) ∧
       ((dw.min.z : ℚ) ≤ v.z ∧ v.z ≤ (dw.max.z : ℚ))) := by
  unfold isInBounds
  constructor
  · intro hb
    split_ifs at hb with h1 h2 h3
    push_neg at h1 h2 h3
    exact ⟨h1, h2, h3⟩
  · rintro ⟨⟨hx1, hx2⟩, ⟨hy1, hy2⟩, ⟨hz1, hz2⟩⟩
    rw [if_neg (by push_neg; exact ⟨hx1, hx2⟩), if_neg (by push_neg; exact ⟨hy1, hy2⟩),
      if_neg (by push_neg; exact ⟨hz1, hz2⟩)]

/-! ### Claim theorems -/

/-- C1 (confirmed): for every world-space ray,
`UniformMappingIntersection::intersect` transforms the ray to local space,
slab-tests it against the unit box `[0,1]³`, returns the empty list on a
miss, and otherwise returns exactly the single interval
`(t0, t1, (t1 - t0) / numSamples)` with `numSamples` the Euclidean
voxel-space distance between `ray(t0)` and `ray(t1)` mapped through
`worldToVoxel`. -/
theorem uniform_intersect_matches_spec (h : UniformMappingIntersection) (r : Ray) :
    h.intersect r = uniformIntersectSpec h r := by
  unfold UniformMappingIntersection.intersect uniformIntersectSpec
  rcases hs : slab ⟨h.worldToLocal.applyP r.pos, h.worldToLocal.applyD r.dir⟩ with _ | ⟨a, b⟩
  · rfl
  · simp [mkInterval]

/-- C2 (confirmed): for every world-space ray,
`FrustumMappingIntersection::intersect` folds over the six precomputed
planes, treating a plane with `dot(dir, normal) > 0` as a far constraint
(`t1 = min t1 t`), one with negative dot as a near constraint
(`t0 = max t0 t`) and a parallel plane as no constraint; when the fold ends
with `t0 < t1` it clamps `t0` to `max t0 0` and returns a single interval
with the step length derived as in the uniform case, and otherwise returns
the empty list. -/
theorem frustum_intersect_matches_spec (h : FrustumMappingIntersection) (r : Ray) :
    h.intersect r = frustumIntersectSpec h r := by
  unfold FrustumMappingIntersection.intersect frustumIntersectSpec
  rw [frustum_fold_eq]
  simp [mkInterval]

/-- C5 (confirmed): `VoxelVolume::sample` returns the zero color when the
attribute resolves to an invalid index (it was already invalid, or its name
differs from the buffer's attribute name), returns the zero color when the
voxel-space image of the query position falls outside the data window under
the inclusive per-axis bounds test, and otherwise returns the value of the
linear sampler at that voxel-space point. -/
theorem voxelVolume_sample_characterization
    (linInterp : VoxelBuffer → Vec3 → ℝ) (buf : VoxelBuffer) (wsP : Vec3)
    (attrIn : VolumeAttr) :
    VoxelVolume.sample linInterp buf wsP attrIn =
      if attrIn.state = .attrInvalid ∨
          (attrIn.state = .attrNotSet ∧ attrIn.name ≠ buf.attrName) then some 0
      else
        buf.mapping.map fun mp =>
          if ((buf.dataWindow.min.x : ℚ) ≤ (mp.worldToVoxel wsP).x ∧
                (mp.worldToVoxel wsP).x ≤ (buf.dataWindow.max.x : ℚ)) ∧
             ((buf.dataWindow.min.y : ℚ) ≤ (mp.worldToVoxel wsP).y ∧
                (mp.worldToVoxel wsP).y ≤ (buf.dataWindow.max.y : ℚ)) ∧
             ((buf.dataWindow.min.z : ℚ) ≤ (mp.worldToVoxel wsP).z ∧
                (mp.worldToVoxel wsP).z ≤ (buf.dataWindow.max.z : ℚ))
          then linInterp buf (mp.worldToVoxel wsP)
          else 0 := by
  rcases attrIn with ⟨nm, st⟩
  cases st with
  | attrInvalid =>
    simp [VoxelVolume.sample]
  | attrValid i =>
    rcases hbm : buf.mapping with _ | mp
    · simp [VoxelVolume.sample, hbm]
    · by_cases hib : isInBounds (mp.worldToVoxel wsP) buf.dataWindow = true
      · simp [VoxelVolume.sample, hbm, hib, (isInBounds_iff _ _).mp hib]
      · have hnc : ¬(((buf.dataWindow.min.x : ℚ) ≤ (mp.worldToVoxel wsP).x ∧
            (mp.worldToVoxel wsP).x ≤ (buf.dataWindow.max.x : ℚ)) ∧
            ((buf.dataWindow.min.y : ℚ) ≤ (mp.worldToVoxel wsP).y ∧
            (mp.worldToVoxel wsP).y ≤ (buf.dataWindow.max.y : ℚ)) ∧
            ((buf.dataWindow.min.z : ℚ) ≤ (mp.worldToVoxel wsP).z ∧
            (mp.worldToVoxel wsP).z ≤ (buf.dataWindow.max.z : ℚ))) :=
          fun hc => hib ((isInBounds_iff _ _).mpr hc)
        simp [VoxelVolume.sample, hbm, hib, hnc]
  | attrNotSet =>
    by_cases hn : nm = buf.attrName
    · rcases hbm : buf.mapping with _ | mp
      · simp [VoxelVolume.sample, setupVolumeAttr, hbm, hn]
      · by_cases hib : isInBounds (mp.worldToVoxel wsP) buf.dataWindow = true
        · simp [VoxelVolume.sample, setupVolumeAttr, hbm, hn, hib,
            (isInBounds_iff _ _).mp hib]
        · have hnc : ¬(((buf.dataWindow.min.x : ℚ) ≤ (mp.worldToVoxel wsP).x ∧
              (mp.worldToVoxel wsP).x ≤ (buf.dataWindow.max.x : ℚ)) ∧
              ((buf.dataWindow.min.y : ℚ) ≤ (mp.worldToVoxel wsP).y ∧
              (mp.worldToVoxel wsP).y ≤ (buf.dataWindow.max.y : ℚ)) ∧
              ((buf.dataWindow.min.z : ℚ) ≤ (mp.worldToVoxel wsP).z ∧
              (mp.worldToVoxel wsP).z ≤ (buf.dataWindow.max.z : ℚ))) :=
            fun hc => hib ((isInBounds_iff _ _).mpr hc)
          simp [VoxelVolume.sample, setupVolumeAttr, hbm, hn, hib, hnc]
    · simp [VoxelVolume.sample, setupVolumeAttr, hn]

/-- The source's `Gaussian(2, 2)` kernel equals the spec's literal kernel
`max(0, exp(-2x²) - exp(-8))`. -/
theorem gaussEval_spec_eq (x : ℚ) : (Gaussian.mk 2 2).eval x = gaussEvalSpec x := by
  unfold Gaussian.eval gaussEvalSpec
  norm_num

theorem gaussWeight_eq_spec (cl : Vec3) (i j k : ℤ) :
    gaussWeight cl i j k =
      gaussEvalSpec ((i : ℚ) + 1 / 2 - cl.x) * gaussEvalSpec ((j : ℚ) + 1 / 2 - cl.y) *
        gaussEvalSpec ((k : ℚ) + 1 / 2 - cl.z) := by
  unfold gaussWeight Gaussian.eval3 discToCont
  rw [gaussEval_spec_eq, gaussEval_spec_eq, gaussEval_spec_eq]

/-- C8 (confirmed): the Gaussian-weighted sampler clamps each axis of the
voxel point to `≥ 0.5`, sets the neighbourhood origin
`c = floor(clampedP - 0.5) - 1` per axis, and returns
`(Σ weight·value) / (Σ weight)` over the 4×4×4 neighbourhood
`i ∈ [c.x, c.x+3]` (`j`, `k` similarly), where the separable weight is the
product of per-axis kernels `max(0, exp(-2x²) - exp(-8))` evaluated at
`(i + 0.5) - clampedP`, and every neighbour index is clamped to the buffer's
data window before the value lookup. -/
theorem gaussian_sample_matches_spec (data : GField) (vsP : Vec3) :
    GaussianFieldInterp.sample data vsP = gaussianSampleSpec data vsP := by
  unfold GaussianFieldInterp.sample gaussianSampleSpec gaussNumerator gaussNormalization
  simp only [sum_Icc_four, gaussWeight_eq_spec, gaussClamped, gaussCorner, clampIdx]

/-- C10 (confirmed): in exact real arithmetic, for every voxel point and
every non-empty data window the Gaussian sampler's normalization (the sum of
the 4×4×4 tap weights) is strictly positive — the tap at per-axis offset
`floor(p) - p ∈ (-1, 0]` lies strictly inside the truncation radius 2 — so
the final division of `GaussianFieldInterp::sample` never divides by zero. -/
theorem gaussian_normalization_pos (data : GField) (vsP : Vec3)
    (_hx : data.dataWindow.min.x ≤ data.dataWindow.max.x)
    (_hy : data.dataWindow.min.y ≤ data.dataWindow.max.y)
    (_hz : data.dataWindow.min.z ≤ data.dataWindow.max.z) :
    0 < gaussNormalization vsP ∧
      GaussianFieldInterp.sample data vsP =
        gaussNumerator data vsP / gaussNormalization vsP := by
  constructor
  · simp only [gaussNormalization]
    apply Finset.sum_pos'
    · intro k _
      apply Finset.sum_nonneg; intro j _
      apply Finset.sum_nonneg; intro i _
      exact gaussWeight_nonneg _ _ _ _
    · refine ⟨1, Finset.mem_range.mpr (by norm_num), ?_⟩
      apply Finset.sum_pos'
      · intro j _
        apply Finset.sum_nonneg; intro i _
        exact gaussWeight_nonneg _ _ _ _
      · refine ⟨1, Finset.mem_range.mpr (by norm_num), ?_⟩
        apply Finset.sum_pos'
        · intro i _
          exact gaussWeight_nonneg _ _ _ _
        · refine ⟨1, Finset.mem_range.mpr (by norm_num), ?_⟩
          simpa using gauss_center_weight_pos (gaussClamped vsP)
  · rfl

/-- C3 (corrected): every interval returned by
`UniformMappingIntersection::intersect` satisfies `t0 ≤ t1`; an interval
returned by `FrustumMappingIntersection::intersect` satisfies `t0 ≤ t1`
provided its exit parameter is not behind the ray origin (`0 ≤ t1`; the
source clamps `t0` to `max t0 0` without re-checking the order, so a frustum
entirely behind the ray yields `t0 > t1`); and in both handlers
`stepLength > 0` whenever `t1 > t0` and the interval endpoints map to
distinct voxel-space points. -/
theorem interval_invariants_amended (hU : UniformMappingIntersection)
    (hF : FrustumMappingIntersection) (r : Ray) (iv : Interval) :
    (iv ∈ hU.intersect r →
      iv.t0 ≤ iv.t1 ∧
        (iv.t0 < iv.t1 →
          hU.worldToVoxel.applyP (r.at iv.t0) ≠ hU.worldToVoxel.applyP (r.at iv.t1) →
          0 < iv.stepLength)) ∧
    (iv ∈ hF.intersect r →
      (0 ≤ iv.t1 → iv.t0 ≤ iv.t1) ∧
        (iv.t0 < iv.t1 →
          hF.worldToVoxel (r.at iv.t0) ≠ hF.worldToVoxel (r.at iv.t1) →
          0 < iv.stepLength)) :=
  ⟨fun hm => ⟨uniform_t0_le_t1 hm, fun hlt hne => uniform_step_pos hm hlt hne⟩,
   fun hm => ⟨fun h1 => frustum_t0_le_t1 hm h1, fun hlt hne => frustum_step_pos hm hlt hne⟩⟩

/-- C3 counterexample: for the frustum handler built from the unit cube
translated to `x ∈ [-10, -9]` (a valid frustum mapping) and the ray from the
origin along `+x` — the volume entirely behind the ray — `intersect` returns
the single interval `(t0, t1) = (0, -9)`, which violates `t0 ≤ t1`. -/
theorem frustum_interval_order_cex :
    ((FrustumMappingIntersection.ofMapping
        ⟨fun p => ⟨p.x - 10, p.y, p.z⟩, fun p => ⟨p.x + 10, p.y, p.z⟩⟩).intersect
      ⟨⟨0, 1 / 2, 1 / 2⟩, ⟨1, 0, 0⟩⟩).map (fun iv => (iv.t0, iv.t1)) = [(0, -9)] ∧
    ¬ ((0 : ℚ) ≤ (-9 : ℚ)) := by
  constructor
  · have hf : (FrustumMappingIntersection.ofMapping
        ⟨fun p => ⟨p.x - 10, p.y, p.z⟩, fun p => ⟨p.x + 10, p.y, p.z⟩⟩).planes.foldl
          (frustumStep ⟨⟨0, 1 / 2, 1 / 2⟩, ⟨1, 0, 0⟩⟩) (-dblMax, dblMax) =
        ((-10 : ℚ), (-9 : ℚ)) := by
      norm_num [FrustumMappingIntersection.ofMapping, mkPlane, Vec3.sub, Vec3.cross,
        Vec3.dot, frustumStep, Plane.intersectT, dblMax]
    rw [frustum_intersect_of_fold hf, if_pos (by norm_num : (-10 : ℚ) < -9)]
    simp [mkInterval]
  · norm_num

/-- C3 witness: the amended claim applied to the identity uniform handler,
the identity frustum handler and the ray from `(-1, 1/2, 1/2)` along `+x`,
both of which return exactly the interval `mkInterval 1 2 1`. -/
theorem interval_invariants_witness :
    (mkInterval 1 2 1).t0 ≤ (mkInterval 1 2 1).t1 ∧ 0 < (mkInterval 1 2 1).stepLength := by
  have T := interval_invariants_amended ⟨affineId, affineId⟩
      (FrustumMappingIntersection.ofMapping ⟨fun p => p, fun p => p⟩)
      ⟨⟨-1, 1 / 2, 1 / 2⟩, ⟨1, 0, 0⟩⟩ (mkInterval 1 2 1)
  have hs : slab ⟨(⟨affineId, affineId⟩ : UniformMappingIntersection).worldToLocal.applyP
        (⟨⟨-1, 1 / 2, 1 / 2⟩, ⟨1, 0, 0⟩⟩ : Ray).pos,
      (⟨affineId, affineId⟩ : UniformMappingIntersection).worldToLocal.applyD
        (⟨⟨-1, 1 / 2, 1 / 2⟩, ⟨1, 0, 0⟩⟩ : Ray).dir⟩ = some (1, 2) := by
    norm_num [affineId, AffineXf.applyP, AffineXf.applyD, Mat3.mulVec, Vec3.dot,
      Vec3.add, slab, slabAxis, dblMax]
  have hnsqU : (((⟨affineId, affineId⟩ : UniformMappingIntersection).worldToVoxel.applyP
        ((⟨⟨-1, 1 / 2, 1 / 2⟩, ⟨1, 0, 0⟩⟩ : Ray).at 2)).sub
      ((⟨affineId, affineId⟩ : UniformMappingIntersection).worldToVoxel.applyP
        ((⟨⟨-1, 1 / 2, 1 / 2⟩, ⟨1, 0, 0⟩⟩ : Ray).at 1))).normSq = 1 := by
    norm_num [affineId, AffineXf.applyP, Mat3.mulVec, Vec3.dot, Vec3.add, Vec3.sub,
      Vec3.smul, Vec3.normSq, Ray.at]
  have hmU : mkInterval 1 2 1 ∈
      (⟨affineId, affineId⟩ : UniformMappingIntersection).intersect
        ⟨⟨-1, 1 / 2, 1 / 2⟩, ⟨1, 0, 0⟩⟩ := by
    rw [uniform_intersect_of_slab_some hs, hnsqU]
    exact List.mem_singleton.mpr rfl
  have hff : (FrustumMappingIntersection.ofMapping
      ⟨fun p => p, fun p => p⟩).planes.foldl
        (frustumStep ⟨⟨-1, 1 / 2, 1 / 2⟩, ⟨1, 0, 0⟩⟩) (-dblMax, dblMax) =
      ((1 : ℚ), (2 : ℚ)) := by
    norm_num [FrustumMappingIntersection.ofMapping, mkPlane, Vec3.sub, Vec3.cross,
      Vec3.dot, frustumStep, Plane.intersectT, dblMax]
  have hnsqF : (((FrustumMappingIntersection.ofMapping
        ⟨fun p => p, fun p => p⟩).worldToVoxel
          ((⟨⟨-1, 1 / 2, 1 / 2⟩, ⟨1, 0, 0⟩⟩ : Ray).at 2)).sub
      ((FrustumMappingIntersection.ofMapping ⟨fun p => p, fun p => p⟩).worldToVoxel
        ((⟨⟨-1, 1 / 2, 1 / 2⟩, ⟨1, 0, 0⟩⟩ : Ray).at (max 1 0)))).normSq = 1 := by
    norm_num [FrustumMappingIntersection.ofMapping, Vec3.sub, Vec3.add, Vec3.smul,
      Vec3.normSq, Ray.at]
  have hmF : mkInterval 1 2 1 ∈
      (FrustumMappingIntersection.ofMapping ⟨fun p => p, fun p => p⟩).intersect
        ⟨⟨-1, 1 / 2, 1 / 2⟩, ⟨1, 0, 0⟩⟩ := by
    rw [frustum_intersect_of_fold hff, if_pos (by norm_num : (1 : ℚ) < 2), hnsqF,
      show max (1 : ℚ) 0 = 1 by norm_num]
    exact List.mem_singleton.mpr rfl
  have hne : (⟨affineId, affineId⟩ : UniformMappingIntersection).worldToVoxel.applyP
      ((⟨⟨-1, 1 / 2, 1 / 2⟩, ⟨1, 0, 0⟩⟩ : Ray).at (mkInterval 1 2 1).t0) ≠
      (⟨affineId, affineId⟩ : UniformMappingIntersection).worldToVoxel.applyP
        ((⟨⟨-1, 1 / 2, 1 / 2⟩, ⟨1, 0, 0⟩⟩ : Ray).at (mkInterval 1 2 1).t1) := by
    simp only [mkInterval]
    simp [affineId, AffineXf.applyP, Mat3.mulVec, Vec3.dot, Vec3.add, Vec3.smul,
      Ray.at, Vec3.mk.injEq]
    norm_num
  exact ⟨(T.2 hmF).1 (by norm_num [mkInterval]),
    (T.1 hmU).2 (by norm_num [mkInterval]) hne⟩

/-- C4 (corrected): whenever either intersection handler returns a non-empty
interval list, the interval's `stepLength` is strictly positive provided
`t0 < t1` and the two endpoints map to distinct voxel-space points; the
degenerate cases (grazing ray with `voxelNear = voxelFar`, the unguarded
`numSamples = 0` division, and the frustum's behind-the-origin intervals
with `t1 < t0`) are excluded, as the source does not guard them. -/
theorem stepLength_pos_amended (hU : UniformMappingIntersection)
    (hF : FrustumMappingIntersection) (r : Ray) (iv : Interval)
    (hmem :
      (iv ∈ hU.intersect r ∧
        hU.worldToVoxel.applyP (r.at iv.t0) ≠ hU.worldToVoxel.applyP (r.at iv.t1)) ∨
      (iv ∈ hF.intersect r ∧
        hF.worldToVoxel (r.at iv.t0) ≠ hF.worldToVoxel (r.at iv.t1)))
    (hlt : iv.t0 < iv.t1) : 0 < iv.stepLength := by
  rcases hmem with ⟨hm, hne⟩ | ⟨hm, hne⟩
  · exact uniform_step_pos hm hlt hne
  · exact frustum_step_pos hm hlt hne

/-- C4 counterexample: the frustum handler built from the unit cube
translated to `x ∈ [-5, -4]` and the ray from the origin along `+x` return
the non-empty interval list `[mkInterval 0 (-4) 16]`, whose step length
`(-4 - 0)/√16 = -1` is not strictly positive (in the C++ doubles the same
input makes the unguarded division produce a non-positive value as well). -/
theorem frustum_stepLength_cex :
    (FrustumMappingIntersection.ofMapping
        ⟨fun p => ⟨p.x - 5, p.y, p.z⟩, fun p => ⟨p.x + 5, p.y, p.z⟩⟩).intersect
      ⟨⟨0, 1 / 2, 1 / 2⟩, ⟨1, 0, 0⟩⟩ = [mkInterval 0 (-4) 16] ∧
    (mkInterval 0 (-4) 16).stepLength < 0 := by
  constructor
  · have hf : (FrustumMappingIntersection.ofMapping
        ⟨fun p => ⟨p.x - 5, p.y, p.z⟩, fun p => ⟨p.x + 5, p.y, p.z⟩⟩).planes.foldl
          (frustumStep ⟨⟨0, 1 / 2, 1 / 2⟩, ⟨1, 0, 0⟩⟩) (-dblMax, dblMax) =
        ((-5 : ℚ), (-4 : ℚ)) := by
      norm_num [FrustumMappingIntersection.ofMapping, mkPlane, Vec3.sub, Vec3.cross,
        Vec3.dot, frustumStep, Plane.intersectT, dblMax]
    rw [frustum_intersect_of_fold hf, if_pos (by norm_num : (-5 : ℚ) < -4),
      show max (-5 : ℚ) 0 = 0 by norm_num,
      show (((FrustumMappingIntersection.ofMapping
          ⟨fun p => ⟨p.x - 5, p.y, p.z⟩, fun p => ⟨p.x + 5, p.y, p.z⟩⟩).worldToVoxel
            ((⟨⟨0, 1 / 2, 1 / 2⟩, ⟨1, 0, 0⟩⟩ : Ray).at (-4))).sub
        ((FrustumMappingIntersection.ofMapping
          ⟨fun p => ⟨p.x - 5, p.y, p.z⟩, fun p => ⟨p.x + 5, p.y, p.z⟩⟩).worldToVoxel
            ((⟨⟨0, 1 / 2, 1 / 2⟩, ⟨1, 0, 0⟩⟩ : Ray).at 0))).normSq = 16 by
        norm_num [FrustumMappingIntersection.ofMapping, Vec3.sub, Vec3.add, Vec3.smul,
          Vec3.normSq, Ray.at]]
  · show (((-4 : ℚ) - 0 : ℚ) : ℝ) / Real.sqrt ((16 : ℚ) : ℝ) < 0
    apply div_neg_of_neg_of_pos
    · push_cast
      norm_num
    · apply Real.sqrt_pos.mpr
      push_cast
      norm_num

/-- C4 witness: the amended claim applied to the identity uniform handler and
the ray from `(-2, 1/2, 1/2)` along `+x`, which returns `mkInterval 2 3 1`. -/
theorem stepLength_pos_witness : 0 < (mkInterval 2 3 1).stepLength := by
  have hs : slab ⟨(⟨affineId, affineId⟩ : UniformMappingIntersection).worldToLocal.applyP
        (⟨⟨-2, 1 / 2, 1 / 2⟩, ⟨1, 0, 0⟩⟩ : Ray).pos,
      (⟨affineId, affineId⟩ : UniformMappingIntersection).worldToLocal.applyD
        (⟨⟨-2, 1 / 2, 1 / 2⟩, ⟨1, 0, 0⟩⟩ : Ray).dir⟩ = some (2, 3) := by
    norm_num [affineId, AffineXf.applyP, AffineXf.applyD, Mat3.mulVec, Vec3.dot,
      Vec3.add, slab, slabAxis, dblMax]
  have hnsq : (((⟨affineId, affineId⟩ : UniformMappingIntersection).worldToVoxel.applyP
        ((⟨⟨-2, 1 / 2, 1 / 2⟩, ⟨1, 0, 0⟩⟩ : Ray).at 3)).sub
      ((⟨affineId, affineId⟩ : UniformMappingIntersection).worldToVoxel.applyP
        ((⟨⟨-2, 1 / 2, 1 / 2⟩, ⟨1, 0, 0⟩⟩ : Ray).at 2))).normSq = 1 := by
    norm_num [affineId, AffineXf.applyP, Mat3.mulVec, Vec3.dot, Vec3.add, Vec3.sub,
      Vec3.smul, Vec3.normSq, Ray.at]
  have hm : mkInterval 2 3 1 ∈
      (⟨affineId, affineId⟩ : UniformMappingIntersection).intersect
        ⟨⟨-2, 1 / 2, 1 / 2⟩, ⟨1, 0, 0⟩⟩ := by
    rw [uniform_intersect_of_slab_some hs, hnsq]
    exact List.mem_singleton.mpr rfl
  have hne : (⟨affineId, affineId⟩ : UniformMappingIntersection).worldToVoxel.applyP
      ((⟨⟨-2, 1 / 2, 1 / 2⟩, ⟨1, 0, 0⟩⟩ : Ray).at (mkInterval 2 3 1).t0) ≠
      (⟨affineId, affineId⟩ : UniformMappingIntersection).worldToVoxel.applyP
        ((⟨⟨-2, 1 / 2, 1 / 2⟩, ⟨1, 0, 0⟩⟩ : Ray).at (mkInterval 2 3 1).t1) := by
    simp only [mkInterval]
    simp [affineId, AffineXf.applyP, Mat3.mulVec, Vec3.dot, Vec3.add, Vec3.smul,
      Ray.at, Vec3.mk.injEq]
    norm_num
  exact stepLength_pos_amended ⟨affineId, affineId⟩ ⟨[], fun p => p⟩
    ⟨⟨-2, 1 / 2, 1 / 2⟩, ⟨1, 0, 0⟩⟩ (mkInterval 2 3 1) (Or.inl ⟨hm, hne⟩)
    (by norm_num [mkInterval])

/-- C6 (confirmed): `updateIntersectionHandler` fails exactly when the buffer
is absent, the buffer's mapping is absent, or the mapping is neither the
matrix (uniform) nor the frustum variant; a matrix mapping installs a
`UniformMappingIntersection` built from it, a frustum mapping a
`FrustumMappingIntersection`. -/
theorem updateIntersectionHandler_characterization (s : VoxelVolumeState) :
    ((∃ e, VoxelVolume.updateIntersectionHandler s = .error e) ↔
      (s.buffer = none ∨
       (∃ b, s.buffer = some b ∧ b.mapping = none) ∨
       (∃ b w, s.buffer = some b ∧ b.mapping = some (.other w)))) ∧
    (∀ b m, s.buffer = some b → b.mapping = some (.matrix m) →
      VoxelVolume.updateIntersectionHandler s =
        .ok (.uniform (UniformMappingIntersection.ofMapping m))) ∧
    (∀ b f, s.buffer = some b → b.mapping = some (.frustum f) →
      VoxelVolume.updateIntersectionHandler s =
        .ok (.frustum (FrustumMappingIntersection.ofMapping f))) := by
  obtain ⟨ob, oh⟩ := s
  rcases ob with _ | b
  · refine ⟨by simp [VoxelVolume.updateIntersectionHandler], ?_, ?_⟩
    · intro b m hb hm
      exact absurd hb (by simp)
    · intro b f hb hm
      exact absurd hb (by simp)
  · rcases hmp : b.mapping with _ | mp
    · refine ⟨by simp [VoxelVolume.updateIntersectionHandler, hmp], ?_, ?_⟩
      · intro b' m hb hm
        rw [Option.some_inj] at hb
        subst hb
        simp [hmp] at hm
      · intro b' f hb hm
        rw [Option.some_inj] at hb
        subst hb
        simp [hmp] at hm
    · cases mp with
      | matrix m =>
        refine ⟨by simp [VoxelVolume.updateIntersectionHandler, hmp], ?_, ?_⟩
        · intro b' m' hb hm
          rw [Option.some_inj] at hb
          subst hb
          rw [hmp] at hm
          simp only [Option.some_inj, FieldMapping.matrix.injEq] at hm
          subst hm
          simp [VoxelVolume.updateIntersectionHandler, hmp]
        · intro b' f hb hm
          rw [Option.some_inj] at hb
          subst hb
          simp [hmp] at hm
      | frustum f =>
        refine ⟨by simp [VoxelVolume.updateIntersectionHandler, hmp], ?_, ?_⟩
        · intro b' m hb hm
          rw [Option.some_inj] at hb
          subst hb
          simp [hmp] at hm
        · intro b' f' hb hm
          rw [Option.some_inj] at hb
          subst hb
          rw [hmp] at hm
          simp only [Option.some_inj, FieldMapping.frustum.injEq] at hm
          subst hm
          simp [VoxelVolume.updateIntersectionHandler, hmp]
      | other w =>
        refine ⟨?_, ?_, ?_⟩
        · simp only [VoxelVolume.updateIntersectionHandler, hmp]
          constructor
          · intro _
            exact Or.inr (Or.inr ⟨b, w, rfl, hmp⟩)
          · intro _
            exact ⟨.unsupportedMapping, rfl⟩
        · intro b' m hb hm
          rw [Option.some_inj] at hb
          subst hb
          simp [hmp] at hm
        · intro b' f hb hm
          rw [Option.some_inj] at hb
          subst hb
          simp [hmp] at hm

/-- C6 witness: a volume holding a buffer with a matrix mapping installs the
uniform handler; a volume with no buffer fails. -/
theorem updateIntersectionHandler_witness :
    VoxelVolume.updateIntersectionHandler
        ⟨some ⟨"density", ⟨⟨0, 0, 0⟩, ⟨7, 7, 7⟩⟩, some (.matrix ⟨affineId, affineId⟩),
          fun _ _ _ => 0⟩, none⟩ =
      .ok (.uniform (UniformMappingIntersection.ofMapping ⟨affineId, affineId⟩)) ∧
    (∃ e, VoxelVolume.updateIntersectionHandler ⟨none, none⟩ = .error e) := by
  constructor
  · exact (updateIntersectionHandler_characterization _).2.1 _ _ rfl rfl
  · exact (updateIntersectionHandler_characterization ⟨none, none⟩).1.mpr (Or.inl rfl)

/-- C7 counterexample: a file that opens and yields one field that is not a
dense buffer is a resource error ("no usable field"), yet `load` on a volume
with no previous buffer does not return normally: the fall-through call to
`updateIntersectionHandler` throws `MissingBufferException`. -/
theorem load_nonDense_throws_cex :
    VoxelVolume.load (.fields [.nonDense]) ⟨none, none⟩ =
      (⟨none, none⟩, .error .missingBuffer) := rfl

/-- C7 (corrected): `load` logs and returns without throwing, leaving the
state unchanged, when the file cannot be opened or yields zero fields; when
the file yields fields whose first is not a dense buffer, the buffer is left
unchanged but `updateIntersectionHandler` still runs, which throws
`MissingBufferException` if no buffer was previously set. -/
theorem load_resource_errors_amended (s : VoxelVolumeState) :
    VoxelVolume.load .openFail s = (s, .ok ()) ∧
    VoxelVolume.load (.fields []) s = (s, .ok ()) ∧
    ∀ rest : List LoadedField,
      (VoxelVolume.load (.fields (.nonDense :: rest)) s).1.buffer = s.buffer ∧
      (s.buffer = none →
        VoxelVolume.load (.fields (.nonDense :: rest)) s = (s, .error .missingBuffer)) := by
  refine ⟨rfl, rfl, fun rest => ⟨?_, ?_⟩⟩
  · simp only [VoxelVolume.load]
    rcases hu : VoxelVolume.updateIntersectionHandler s with e | h <;> simp [hu]
  · intro hb
    have hu : VoxelVolume.updateIntersectionHandler s = .error .missingBuffer := by
      simp [VoxelVolume.updateIntersectionHandler, hb]
    simp [VoxelVolume.load, hu]

/-- C7 witness: the amended claim at the empty volume — an unopenable file is
absorbed with the state unchanged, and a non-dense first field makes the
fall-through handler rebuild throw. -/
theorem load_resource_errors_witness :
    VoxelVolume.load .openFail ⟨none, none⟩ = (⟨none, none⟩, .ok ()) ∧
    VoxelVolume.load (.fields [.nonDense]) ⟨none, none⟩ =
      (⟨none, none⟩, .error .missingBuffer) :=
  ⟨(load_resource_errors_amended ⟨none, none⟩).1,
   ((load_resource_errors_amended ⟨none, none⟩).2.2 []).2 rfl⟩

/-- C9 (confirmed): after `setBuffer b` the attribute names are exactly
`[b.attribute]` (the buffer is assigned before the handler rebuild can
throw); and `load` of a file lacking a usable field (zero fields, or a first
field that is not a dense buffer) on a volume with no previous buffer leaves
the buffer unset, so no attribute names are available and `intersect` is not
yet callable. -/
theorem roundtrip_attributeNames (b : VoxelBuffer) (s : VoxelVolumeState) :
    VoxelVolume.attributeNames (VoxelVolume.setBuffer b s).1 = some [b.attrName] ∧
    (∀ f : LoadFile, s.buffer = none → s.handler = none →
      ((f = .fields []) ∨ (∃ rest, f = .fields (.nonDense :: rest))) →
      ((VoxelVolume.load f s).1.buffer = none ∧
       VoxelVolume.attributeNames (VoxelVolume.load f s).1 = none ∧
       ∀ r : Ray, VoxelVolume.intersect (VoxelVolume.load f s).1 r = none)) := by
  constructor
  · simp only [VoxelVolume.setBuffer]
    rcases hu : VoxelVolume.updateIntersectionHandler ⟨some b, s.handler⟩ with e | h <;>
      simp [hu, VoxelVolume.attributeNames]
  · rintro f hb hh (rfl | ⟨rest, rfl⟩)
    · simp [VoxelVolume.load, VoxelVolume.attributeNames, VoxelVolume.intersect, hb, hh]
    · have hu : VoxelVolume.updateIntersectionHandler s = .error .missingBuffer := by
        simp [VoxelVolume.updateIntersectionHandler, hb]
      simp [VoxelVolume.load, hu, VoxelVolume.attributeNames, VoxelVolume.intersect,
        hb, hh]

/-- C9 witness: `setBuffer` of a concrete buffer named "density" on the empty
volume, and `load` of a zero-field file on the empty volume. -/
theorem roundtrip_attributeNames_witness :
    VoxelVolume.attributeNames
        (VoxelVolume.setBuffer
          ⟨"density", ⟨⟨0, 0, 0⟩, ⟨7, 7, 7⟩⟩, some (.matrix ⟨affineId, affineId⟩),
            fun _ _ _ => 0⟩ ⟨none, none⟩).1 = some ["density"] ∧
    (VoxelVolume.load (.fields []) ⟨none, none⟩).1.buffer = none := by
  constructor
  · exact (roundtrip_attributeNames
      ⟨"density", ⟨⟨0, 0, 0⟩, ⟨7, 7, 7⟩⟩, some (.matrix ⟨affineId, affineId⟩),
        fun _ _ _ => 0⟩ ⟨none, none⟩).1
  · exact ((roundtrip_attributeNames
      ⟨"density", ⟨⟨0, 0, 0⟩, ⟨7, 7, 7⟩⟩, some (.matrix ⟨affineId, affineId⟩),
        fun _ _ _ => 0⟩ ⟨none, none⟩).2 (.fields []) rfl rfl (Or.inl rfl)).1

/-- C10 witness: the normalization is positive at the origin for a concrete
non-empty data window. -/
theorem gaussian_normalization_pos_witness : 0 < gaussNormalization ⟨0, 0, 0⟩ :=
  (gaussian_normalization_pos ⟨⟨⟨0, 0, 0⟩, ⟨7, 7, 7⟩⟩, fun _ _ _ => 0⟩ ⟨0, 0, 0⟩
    (by decide) (by decide) (by decide)).1

end PVR
